import Mathlib

set_option maxRecDepth 1000000

/-!
Verification development for `wayland-clip-sync` (src/wayland-clip-sync.py).

The core of the program is embedded shallowly:

* `sha` mirrors the source's `sha(data, mime)` (line 137-138): a SHA-256
  digest, rendered as a lowercase hex string, of `mime.encode() + b"\0" + data`.
  SHA-256 itself is implemented concretely below (it is the behaviour of
  Python's `hashlib.sha256`), over `Nat` bytes and 32-bit words reduced
  modulo `2^32`.
* `choose_mime` mirrors `choose_mime` (lines 90-99).
* The receive path `rx_loop` (lines 165-191) is embedded as a step function
  over the raw inbound byte stream (a `List Nat` of bytes, everything the
  peer will ever send before EOF).  Python's `json.loads` on a header line
  is modelled by `parseHeaderBytes`, a parser for flat JSON objects whose
  values are strings, integers, booleans or `null`.  A successful parse is
  sound: whenever it returns an object, `json.loads` on the same line
  returns exactly that dict.  A failed parse is *not* conversely a
  faithful stand-in for a `json.loads` error: lines with float members,
  `\u` escapes, non-ASCII bytes, arrays or non-object top-level values are
  outside the model (Python may parse them, upon which the source applies
  the frame with a truncated length, or crashes the thread at `hdr.get`
  for a non-dict), so no theorem in this file quantifies over parse
  failure alone.  Statements about unparseable header lines are instead
  made over `json_certainly_raises`, a sufficient condition under which
  `json.loads` raises, or at concrete inputs traced against the library.
* The transmit path `tx_loop`'s per-selection body (lines 196-219) is
  embedded as `tx_sel`, with the external world (offered mime list, the
  clipboard read result, and whether the socket write succeeds) supplied
  as an explicit input record.
* The shared per-session dictionaries `last_local` / `last_remote`
  (created afresh inside `run_session`, lines 232-233) are embedded as
  association lists from JSON values (Python dict keys) to optional JSON
  values (`none` models Python `None`).
-/

/-- A JSON value as produced by `json.loads` for the flat headers this
protocol uses: strings, integers, booleans and `null`.  (Floats and nested
containers are outside the model.) -/
inductive JsonVal where
  | str (s : String)
  | num (n : Int)
  | bool (b : Bool)
  | null
deriving DecidableEq

/-- A parsed header object: Python dict with string keys.  Built with
last-key-wins overwrite semantics, like `json.loads`. -/
abbrev Header := List (String × JsonVal)

/-- Lookup of a header field, `hdr.get(k)` returning `none` when absent. -/
def hdrGet (hdr : Header) (k : String) : Option JsonVal :=
  (hdr.find? (fun p => p.1 == k)).map Prod.snd

/-- Insert-or-overwrite of a header field (duplicate JSON keys: last wins). -/
def hdrSet (hdr : Header) (k : String) (v : JsonVal) : Header :=
  match hdr with
  | [] => [(k, v)]
  | (k2, v2) :: t => if k2 == k then (k, v) :: t else (k2, v2) :: hdrSet t k v

/-- A shared ledger dictionary (`last_local` / `last_remote`): Python dict
whose keys are arbitrary JSON values (the received `sel` field is used as a
key unchecked) and whose values are optional hash values (`none` models
Python `None`, the initial "unset" state). -/
abbrev Dict := List (JsonVal × Option JsonVal)

/-- Dictionary lookup distinguishing a missing key (`none`) from a key
present with value `None` (`some none`). -/
def dictGet (d : Dict) (k : JsonVal) : Option (Option JsonVal) :=
  (d.find? (fun p => p.1 == k)).map Prod.snd

/-- Dictionary read collapsing "missing key" and "stored `None`" into
`none`; in the program every key the transmit loop reads was initialised
by `run_session`, and a stored `None` never equals a computed hash, so
this collapse is observationally faithful. -/
def dGet (d : Dict) (k : JsonVal) : Option JsonVal :=
  (dictGet d k).join

/-- Dictionary store `d[k] = v` (overwrite or append). -/
def dictSet (d : Dict) (k : JsonVal) (v : Option JsonVal) : Dict :=
  match d with
  | [] => [(k, v)]
  | (k2, v2) :: t => if k2 == k then (k, v) :: t else (k2, v2) :: dictSet t k v

/-! ## SHA-256 (the behaviour of `hashlib.sha256`, line 138) -/

/-- Reduce to a 32-bit word. -/
def w32 (n : Nat) : Nat := n % 4294967296

/-- Rotate a 32-bit word right by `n` bit positions. -/
def rotr (n x : Nat) : Nat := w32 ((x >>> n) ||| (x <<< (32 - n)))

/-- SHA-256 big sigma 0. -/
def bsig0 (x : Nat) : Nat := (rotr 2 x) ^^^ (rotr 13 x) ^^^ (rotr 22 x)

/-- SHA-256 big sigma 1. -/
def bsig1 (x : Nat) : Nat := (rotr 6 x) ^^^ (rotr 11 x) ^^^ (rotr 25 x)

/-- SHA-256 small sigma 0. -/
def ssig0 (x : Nat) : Nat := (rotr 7 x) ^^^ (rotr 18 x) ^^^ (x >>> 3)

/-- SHA-256 small sigma 1. -/
def ssig1 (x : Nat) : Nat := (rotr 17 x) ^^^ (rotr 19 x) ^^^ (x >>> 10)

/-- The 64 SHA-256 round constants (decimal). -/
def shaK : List Nat :=
  [1116352408, 1899447441, 3049323471, 3921009573, 961987163,
   1508970993, 2453635748, 2870763221, 3624381080, 310598401,
   607225278, 1426881987, 1925078388, 2162078206, 2614888103,
   3248222580, 3835390401, 4022224774, 264347078, 604807628,
   770255983, 1249150122, 1555081692, 1996064986, 2554220882,
   2821834349, 2952996808, 3210313671, 3336571891, 3584528711,
   113926993, 338241895, 666307205, 773529912, 1294757372,
   1396182291, 1695183700, 1986661051, 2177026350, 2456956037,
   2730485921, 2820302411, 3259730800, 3345764771, 3516065817,
   3600352804, 4094571909, 275423344, 430227734, 506948616,
   659060556, 883997877, 958139571, 1322822218, 1537002063,
   1747873779, 1955562222, 2024104815, 2227730452, 2361852424,
   2428436474, 2756734187, 3204031479, 3329325298]

/-- The SHA-256 working state: eight 32-bit words. -/
structure St8 where
  a : Nat
  b : Nat
  c : Nat
  d : Nat
  e : Nat
  f : Nat
  g : Nat
  hh : Nat
deriving DecidableEq

/-- The SHA-256 initial hash value (decimal). -/
def shaH0 : St8 :=
  ⟨1779033703, 3144134277, 1013904242, 2773480762,
   1359893119, 2600822924, 528734635, 1541459225⟩

/-- One SHA-256 compression round, fed one `(k, w)` pair. -/
def cstep (st : St8) (kw : Nat × Nat) : St8 :=
  let ch := (st.e &&& st.f) ^^^ ((st.e ^^^ 4294967295) &&& st.g)
  let maj := (st.a &&& st.b) ^^^ (st.a &&& st.c) ^^^ (st.b &&& st.c)
  let t1 := w32 (st.hh + bsig1 st.e + ch + kw.1 + kw.2)
  let t2 := w32 (bsig0 st.a + maj)
  ⟨w32 (t1 + t2), st.a, st.b, st.c, w32 (st.d + t1), st.e, st.f, st.g⟩

/-- Message-schedule extension: `acc` holds the words produced so far in
reverse order; each step appends one new word, 48 times in total. -/
def sched : Nat → List Nat → List Nat
  | 0, acc => acc
  | n+1, acc =>
    let x := w32 ((acc.getD 15 0) + ssig0 (acc.getD 14 0) + (acc.getD 6 0) + ssig1 (acc.getD 1 0))
    sched n (x :: acc)

/-- The 64-word message schedule of one 16-word block. -/
def schedule (blk : List Nat) : List Nat := (sched 48 blk.reverse).reverse

/-- Compress one 16-word block into the running hash state. -/
def compress (h : St8) (blk : List Nat) : St8 :=
  let st := ((shaK.zip (schedule blk)).foldl cstep h)
  ⟨w32 (h.a + st.a), w32 (h.b + st.b), w32 (h.c + st.c), w32 (h.d + st.d),
   w32 (h.e + st.e), w32 (h.f + st.f), w32 (h.g + st.g), w32 (h.hh + st.hh)⟩

/-- Big-endian 8-byte encoding of a (< 2^64) natural. -/
def be64 (n : Nat) : List Nat :=
  [(n >>> 56) &&& 255, (n >>> 48) &&& 255, (n >>> 40) &&& 255, (n >>> 32) &&& 255,
   (n >>> 24) &&& 255, (n >>> 16) &&& 255, (n >>> 8) &&& 255, n &&& 255]

/-- SHA-256 padding: append `0x80`, zeros to 56 mod 64, then the bit length. -/
def padMsg (m : List Nat) : List Nat :=
  let z := (119 - m.length % 64) % 64
  m ++ 128 :: List.replicate z 0 ++ be64 (8 * m.length)

/-- Group bytes into big-endian 32-bit words. -/
def toWords : List Nat → List Nat
  | b1 :: b2 :: b3 :: b4 :: rest => (((b1 * 256 + b2) * 256 + b3) * 256 + b4) :: toWords rest
  | _ => []

/-- Split a word list into 16-word blocks (fuelled by the list length). -/
def chunk16 : Nat → List Nat → List (List Nat)
  | 0, _ => []
  | _, [] => []
  | n+1, ws => ws.take 16 :: chunk16 n (ws.drop 16)

/-- SHA-256 of a byte list, as eight 32-bit words. -/
def sha256 (msg : List Nat) : List Nat :=
  let f := (chunk16 (padMsg msg).length (toWords (padMsg msg))).foldl compress shaH0
  [f.a, f.b, f.c, f.d, f.e, f.f, f.g, f.hh]

/-- Lowercase hex character of a nibble. -/
def hexNib (n : Nat) : Char := Char.ofNat (if n < 10 then 48 + n else 87 + n)

/-- Eight lowercase hex characters of a 32-bit word, most significant first. -/
def wordHex (w : Nat) : List Char :=
  (List.range 8).map (fun i => hexNib ((w >>> (28 - 4 * i)) &&& 15))

/-- Hex digest string of a word list (`hexdigest()`). -/
def hexDigest (ws : List Nat) : String := ⟨ws.flatMap wordHex⟩

/-- UTF-8 encoding of one character (Python `str.encode()`). -/
def charUtf8 (c : Char) : List Nat :=
  let n := c.toNat
  if n < 128 then [n]
  else if n < 2048 then [192 ||| (n >>> 6), 128 ||| (n &&& 63)]
  else if n < 65536 then
    [224 ||| (n >>> 12), 128 ||| ((n >>> 6) &&& 63), 128 ||| (n &&& 63)]
  else
    [240 ||| (n >>> 18), 128 ||| ((n >>> 12) &&& 63), 128 ||| ((n >>> 6) &&& 63), 128 ||| (n &&& 63)]

/-- UTF-8 encoding of a string (Python `str.encode()`). -/
def utf8Bytes (s : String) : List Nat := s.data.flatMap charUtf8

/-- The source's `sha(data, mime)` (lines 137-138):
`hashlib.sha256(mime.encode() + b"\0" + data).hexdigest()`. -/
def sha (data : List Nat) (mime : String) : String :=
  hexDigest (sha256 (utf8Bytes mime ++ 0 :: data))

/-! ## choose_mime (lines 90-99) -/

/-- The fixed preference list of `choose_mime` (lines 91-94). -/
def prefList : List String :=
  ["image/png", "image/jpeg", "image/webp", "text/plain;charset=utf-8", "text/plain"]

/-- Python's `s.startswith(pre)` (character-prefix test). -/
def pyStartsWith (s pre : String) : Bool := pre.data.isPrefixOf s.data

/-- The match condition of the inner loop (line 97):
`m == pref or (pref.startswith("text/plain") and m.startswith("text/plain"))`. -/
def mimeMatch (pref m : String) : Bool :=
  m == pref || (pyStartsWith pref "text/plain" && pyStartsWith m "text/plain")

/-- The source's `choose_mime` (lines 90-99): first preference with an
offered match wins (returning the first offered match), otherwise the first
offered type, otherwise nothing. -/
def choose_mime (mimes : List String) : Option String :=
  match prefList.findSome? (fun pref => mimes.find? (mimeMatch pref)) with
  | some m => some m
  | none => mimes.head?

/-! ## Header parsing: `json.loads(line.decode("utf-8"))` (line 173)

Modelled for the flat objects this protocol speaks: an object literal whose
values are string, integer, boolean or `null` literals.  Invalid JSON, JSON
the model does not cover (nested containers, floats, `\u` escapes,
non-ASCII bytes) and trailing garbage all yield `none`, which the receive
loop treats exactly as the source treats a `json.loads` exception. -/

/-- JSON whitespace. -/
def isWs (c : Char) : Bool := c = ' ' || c = '\t' || c = '\n' || c = '\r'

/-- Skip leading JSON whitespace. -/
def skipWs : List Char → List Char
  | [] => []
  | c :: cs => if isWs c then skipWs cs else c :: cs

/-- JSON string escape characters (short escapes only). -/
def escChar (c : Char) : Option Char :=
  if c = 'n' then some '\n'
  else if c = 't' then some '\t'
  else if c = 'r' then some '\r'
  else if c = '"' then some '"'
  else if c = '\\' then some '\\'
  else if c = '/' then some '/'
  else if c = 'b' then some (Char.ofNat 8)
  else if c = 'f' then some (Char.ofNat 12)
  else none

/-- Parse a JSON string body (after the opening quote) up to the closing
quote; fuelled by the input length.  A raw control character (below
`0x20`) fails the parse, as it does in `json.loads`'s strict mode. -/
def parseStrBody : Nat → List Char → Option (List Char × List Char)
  | 0, _ => none
  | _+1, [] => none
  | n+1, c :: cs =>
    if c = '"' then some ([], cs)
    else if c = '\\' then
      match cs with
      | [] => none
      | e :: cs2 =>
        match escChar e with
        | none => none
        | some ec =>
          match parseStrBody n cs2 with
          | none => none
          | some (r, rest) => some (ec :: r, rest)
    else if c.toNat < 32 then none
    else
      match parseStrBody n cs with
      | none => none
      | some (r, rest) => some (c :: r, rest)

/-- Greedy digit-run split. -/
def spanDigits : List Char → List Char × List Char
  | [] => ([], [])
  | c :: cs =>
    if c.isDigit then
      let (ds, rest) := spanDigits cs
      (c :: ds, rest)
    else ([], c :: cs)

/-- Numeric value of a digit run. -/
def digitsVal (ds : List Char) : Nat := ds.foldl (fun acc c => acc * 10 + (c.toNat - 48)) 0

/-- Parse an integer written as an optional minus then digits, rejecting a
following `.`, `e` or `E` (a float).  This is the shape Python's `int()`
accepts for the strings this model covers — `int("01")` is `1`, so leading
zeros are allowed here; `parseJsonInt` below adds the stricter JSON
grammar. -/
def parseIntLit (cs : List Char) : Option (Int × List Char) :=
  let (neg, cs2) := match cs with
    | '-' :: t => (true, t)
    | _ => (false, cs)
  match spanDigits cs2 with
  | ([], _) => none
  | (ds, rest) =>
    match rest with
    | c :: _ =>
      if c = '.' || c = 'e' || c = 'E' then none
      else some (if neg then -(digitsVal ds : Int) else (digitsVal ds : Int), rest)
    | [] => some (if neg then -(digitsVal ds : Int) else (digitsVal ds : Int), rest)

/-- Parse a JSON integer literal as `json.loads` accepts it: `parseIntLit`
restricted to reject a redundant leading zero (`json.loads` refuses
`01`). -/
def parseJsonInt (cs : List Char) : Option (Int × List Char) :=
  match parseIntLit cs with
  | none => none
  | some (n, rest) =>
    match (match cs with | '-' :: t => t | _ => cs) with
    | '0' :: d :: _ => if d.isDigit then none else some (n, rest)
    | _ => some (n, rest)

/-- Parse one JSON scalar value (string, integer, boolean, `null`). -/
def parseValue (fuel : Nat) (cs : List Char) : Option (JsonVal × List Char) :=
  match cs with
  | '"' :: cs2 =>
    match parseStrBody fuel cs2 with
    | none => none
    | some (s, rest) => some (.str ⟨s⟩, rest)
  | 'n' :: 'u' :: 'l' :: 'l' :: rest => some (.null, rest)
  | 't' :: 'r' :: 'u' :: 'e' :: rest => some (.bool true, rest)
  | 'f' :: 'a' :: 'l' :: 's' :: 'e' :: rest => some (.bool false, rest)
  | _ =>
    match parseJsonInt cs with
    | none => none
    | some (n, rest) => some (.num n, rest)

/-- Parse the members of a JSON object (after the opening brace, when the
object is nonempty): `"key": value` pairs separated by commas, ending at
the closing brace.  Duplicate keys: last one wins, as in `json.loads`. -/
def parseMembers : Nat → List Char → Header → Option (Header × List Char)
  | 0, _, _ => none
  | fuel+1, cs, acc =>
    match skipWs cs with
    | '"' :: cs2 =>
      match parseStrBody (fuel+1) cs2 with
      | none => none
      | some (k, cs3) =>
        match skipWs cs3 with
        | ':' :: cs4 =>
          match parseValue (fuel+1) (skipWs cs4) with
          | none => none
          | some (v, cs5) =>
            let acc2 := hdrSet acc ⟨k⟩ v
            match skipWs cs5 with
            | ',' :: cs6 => parseMembers fuel cs6 acc2
            | '\x7d' :: cs6 => some (acc2, cs6)
            | _ => none
        | _ => none
    | _ => none

/-- Parse a JSON object literal with optional surrounding whitespace. -/
def parseObj (cs : List Char) : Option (Header × List Char) :=
  match skipWs cs with
  | '\x7b' :: cs2 =>
    match skipWs cs2 with
    | '\x7d' :: cs3 => some ([], cs3)
    | _ => parseMembers (cs2.length + 1) cs2 []
  | _ => none

/-- Decode-and-parse of one received header line,
`json.loads(line.decode("utf-8"))` (line 173): ASCII bytes to characters,
then one complete JSON object with nothing but whitespace after it.
`none` models the exception path (caught at line 174). -/
def parseHeaderBytes (bs : List Nat) : Option Header :=
  if bs.all (fun b => b < 128) then
    match parseObj (bs.map Char.ofNat) with
    | none => none
    | some (h, rest) => if skipWs rest = [] then some h else none
  else none

/-- Characters that can begin a JSON value accepted by Python's
`json.loads`, including its `NaN` / `Infinity` extensions.  Modelled from
the json library's behaviour: at a value position, any other character
makes it raise. -/
def jsonValueStart (c : Char) : Bool :=
  c = '\x7b' || c = '[' || c = '"' || c = '-' || c.isDigit ||
  c = 't' || c = 'f' || c = 'n' || c = 'N' || c = 'I'

/-- A sufficient condition for `json.loads(line.decode("utf-8"))` to raise
on this line, modelled from the json library's behaviour: after skipping
JSON whitespace nothing remains, or the first remaining byte cannot begin
a JSON value.  This is sound also for bytes at or above 128: no JSON value
begins with a non-ASCII character, so whether or not the line decodes as
UTF-8, `json.loads` raises. -/
def json_certainly_raises (bs : List Nat) : Bool :=
  match skipWs (bs.map Char.ofNat) with
  | [] => true
  | c :: _ => !(jsonValueStart c)

/-! ## The inbound loop `rx_loop` (lines 165-191) -/

/-- One clipboard write handed to `wl-copy` by `set_clip` (lines 113-135). -/
structure ApplyRec where
  sel : String
  mime : String
  data : List Nat
deriving DecidableEq

/-- The state the inbound loop owns and mutates: the shared `last_remote`
dictionary and the chronological list of clipboard writes performed. -/
structure RxSt where
  last_remote : Dict
  applied : List ApplyRec
deriving DecidableEq

/-- Outcome of one iteration of the `while` body of `rx_loop`. -/
inductive StepOut where
  /-- `readline` returned empty: peer closed the stream; `break` (line 171). -/
  | eof (st : RxSt)
  /-- payload length mismatch; `break` (line 187). -/
  | fatal (st : RxSt)
  /-- an uncaught exception (`int()` on a non-numeric `len` field, line 182)
  kills the thread without reaching `stop_evt.set()`. -/
  | crashed (st : RxSt)
  /-- `continue` to the next iteration with the rest of the stream. -/
  | cont (rest : List Nat) (st : RxSt)
deriving DecidableEq

/-- Python's `int()` on a header field value (line 182): integers pass
through, booleans coerce, numeric strings convert (optional minus then
digits in the model), `None` and non-numeric strings raise. -/
def pyInt : JsonVal → Option Int
  | .num n => some n
  | .bool b => some (if b then 1 else 0)
  | .null => none
  | .str s =>
    match parseIntLit s.data with
    | some (n, []) => some n
    | _ => none

/-- `set_clip(sel, mime, data)` (lines 113-135): the `wl-copy` command is
built from the mime and the test `selection == "primary"` only, so any
selection value other than the string `"primary"` — another string or a
non-string alike — targets the regular clipboard and the write happens;
the record keeps the requested selection name for string selections and
the effective `clipboard` target otherwise.  A non-string mime makes
`Popen` raise, which `set_clip`'s catch-all absorbs, so no write happens
but the loop continues. -/
def set_clip_apply (sel mime : JsonVal) (data : List Nat) : List ApplyRec :=
  match mime with
  | .str m => [⟨(match sel with | .str s => s | _ => "clipboard"), m, data⟩]
  | _ => []

/-- The put-frame handling of `rx_loop` given a parsed header (lines
177-190): skip non-`put` messages; read the selection, mime and hash with
their `dict.get` defaults; read exactly `len` payload bytes (a negative
`len` makes Python's `f.read` consume the whole rest of the stream); on a
length mismatch `break`; otherwise record the declared hash in
`last_remote[sel]` and apply the payload. -/
def rx_handle_hdr (hdr : Header) (rest : List Nat) (st : RxSt) : StepOut :=
  if hdrGet hdr "t" ≠ some (.str "put") then .cont rest st
  else
    let sel := (hdrGet hdr "sel").getD (.str "clipboard")
    let mime := (hdrGet hdr "mime").getD (.str "text/plain")
    match pyInt ((hdrGet hdr "len").getD (.num 0)) with
    | none => .crashed st
    | some len =>
      let data := if len < 0 then rest else rest.take len.toNat
      if (data.length : Int) = len then
        let hv : Option JsonVal :=
          match hdrGet hdr "hash" with
          | none => none
          | some .null => none
          | some v => some v
        .cont (rest.drop len.toNat)
          ⟨dictSet st.last_remote sel hv, st.applied ++ set_clip_apply sel mime data⟩
      else .fatal st

/-- `f.readline()` on the raw byte stream: everything up to and including
the first newline, or the whole remainder at end of stream. -/
def readline : List Nat → List Nat × List Nat
  | [] => ([], [])
  | b :: bs =>
    if b = 10 then ([10], bs)
    else
      let (l, r) := readline bs
      (b :: l, r)

/-- One iteration of the `rx_loop` body (lines 168-190): read a line (empty
means the peer closed), parse it as a header, then handle the frame.  The
model's parse-failure branch mirrors the source's caught `json.loads`
exception (log, `continue`); this is faithful on every line satisfying
`json_certainly_raises` and at the concrete lines used below, while lines
outside the parser's scope (float members, `\u` escapes, non-ASCII bytes,
arrays, non-object top-level JSON) also fall into this branch of the model
without being claimed by any theorem — in the source some of them are
parsed by `json.loads` and then applied, or crash the thread at
`hdr.get`. -/
def rx_step (s : List Nat) (st : RxSt) : StepOut :=
  let lr := readline s
  if lr.1 = [] then .eof st
  else
    match parseHeaderBytes lr.1 with
    | none => .cont lr.2 st
    | some hdr => rx_handle_hdr hdr lr.2 st

/-- How `rx_loop` ended. -/
inductive RxEnd where
  | eofE
  | fatalE
  | crashedE
  | fuelOut
deriving DecidableEq

/-- Final outcome of `rx_loop`. -/
structure RxOut where
  endKind : RxEnd
  st : RxSt
deriving DecidableEq

/-- Whether a given ending executes `stop_evt.set()` (line 191): the two
`break` paths fall through to it; an uncaught exception does not. -/
def stopSet : RxEnd → Bool
  | .eofE => true
  | .fatalE => true
  | .crashedE => false
  | .fuelOut => false

/-- The `rx_loop` while-loop (lines 167-190), fuelled; `fuelOut` never
occurs when the fuel exceeds the number of frames in the stream. -/
def rx_loop : Nat → List Nat → RxSt → RxOut
  | 0, _, st => ⟨.fuelOut, st⟩
  | n+1, s, st =>
    match rx_step s st with
    | .eof st2 => ⟨.eofE, st2⟩
    | .fatal st2 => ⟨.fatalE, st2⟩
    | .crashed st2 => ⟨.crashedE, st2⟩
    | .cont rest st2 => rx_loop n rest st2

/-! ## The outbound loop `tx_loop`, per-selection body (lines 196-219) -/

/-- One frame as built at line 213: the header dictionary
`{"t": "put", "sel": sel, "mime": mime, "len": len(data), "hash": h}`
plus the payload handed to `peer.send`. -/
structure Frame where
  sel : String
  mime : String
  len : Nat
  hash : String
  payload : List Nat
deriving DecidableEq

/-- The external world for one selection in one poll round: the offered
mime types (`list_mimes`), the clipboard read result (`read_clip`, `none`
models a read failure), and whether the socket write succeeds
(`peer.send`). -/
structure TxInput where
  mimes : List String
  readData : Option (List Nat)
  sendOk : Bool
deriving DecidableEq

/-- Result of the per-selection body of `tx_loop`. -/
structure TxSelOut where
  /-- the frame handed to `peer.send`, if the snapshot was not suppressed. -/
  attempted : Option Frame
  /-- whether `peer.send` returned `True`. -/
  delivered : Bool
  last_local : Dict
  /-- whether the body executed `stop_evt.set()` (line 217), signalling the
  inbound loop and ending the session. -/
  stop : Bool
deriving DecidableEq

/-- The body of `for sel in selections` in `tx_loop` (lines 196-219):
skip when nothing is offered, when no mime is chosen (Python truthiness:
an empty-string mime is also falsy), or when the clipboard read fails;
hash the snapshot; suppress when the hash equals `last_local[sel]`, then
when it equals `last_remote[sel]`; otherwise send, and on send failure
set the stop event and leave `last_local` untouched, on success record
the hash in `last_local[sel]`. -/
def tx_sel (sel : String) (inp : TxInput) (last_local last_remote : Dict) : TxSelOut :=
  if inp.mimes = [] then ⟨none, false, last_local, false⟩
  else
    match choose_mime inp.mimes with
    | none => ⟨none, false, last_local, false⟩
    | some m =>
      if m = "" then ⟨none, false, last_local, false⟩
      else
        match inp.readData with
        | none => ⟨none, false, last_local, false⟩
        | some d =>
          let hsh := sha d m
          if dGet last_local (.str sel) = some (.str hsh) then ⟨none, false, last_local, false⟩
          else if dGet last_remote (.str sel) = some (.str hsh) then ⟨none, false, last_local, false⟩
          else
            let fr : Frame := ⟨sel, m, d.length, hsh, d⟩
            if inp.sendOk then
              ⟨some fr, true, dictSet last_local (.str sel) (some (.str hsh)), false⟩
            else ⟨some fr, false, last_local, true⟩

/-- Number of frames actually transmitted by one body run. -/
def txDelivered (o : TxSelOut) : Nat :=
  if o.attempted.isSome && o.delivered then 1 else 0

/-- Two successive poll rounds of the same selection with the same
clipboard content (the inbound side idle in between): the second round
starts from the `last_local` the first round left behind.  Returns the
total number of transmitted frames. -/
def tx_sel_twice_count (sel : String) (inp : TxInput) (last_local last_remote : Dict) : Nat :=
  let o1 := tx_sel sel inp last_local last_remote
  let o2 := tx_sel sel inp o1.last_local last_remote
  txDelivered o1 + txDelivered o2

/-! ## Session setup `run_session` (lines 224-244) and `serve` (246-261) -/

/-- The active selections of a session (line 231):
`["clipboard"] + (["primary"] if primary_ok else [])`. -/
def session_selections (primary_ok : Bool) : List String :=
  "clipboard" :: (if primary_ok then ["primary"] else [])

/-- A fresh per-session ledger dictionary (lines 232-233):
`{s: None for s in selections}`. -/
def init_ledger (sels : List String) : Dict :=
  sels.map (fun s => (.str s, none))

/-- The inbound half of one session as `run_session` starts it (lines
232-235): `rx_loop` over the connection's byte stream, beginning from a
fresh ledger with every active selection unset. -/
def run_session_rx (primary_ok : Bool) (stream : List Nat) : RxOut :=
  rx_loop (stream.length + 1) stream ⟨init_ledger (session_selections primary_ok), []⟩

/-- The `serve` accept loop (lines 248-261): one session per accepted
connection, each run by `run_session` from scratch; the session outcomes
for a list of connection streams. -/
def serve_rx (primary_ok : Bool) (streams : List (List Nat)) : List RxOut :=
  streams.map (run_session_rx primary_ok)

/-- Byte list of an ASCII string, for writing concrete wire inputs. -/
def strBytes (s : String) : List Nat := s.data.map Char.toNat

/-- Modelled from the spec: the `content_hash` contract of section 3 — "a
cryptographic digest computed over `content_type || 0x00 || bytes`",
rendered; the digest algorithm is SHA-256 and the rendering is the hex
digest. Stated from the spec's words, to be compared with the source's
`sha`. -/
def contentHashSpec (content_type : String) (bytes : List Nat) : String :=
  hexDigest (sha256 (utf8Bytes content_type ++ [0] ++ bytes))

/-- The inbound state a session starts from when primary sync is off. -/
def rxInit : RxSt := ⟨init_ledger (session_selections false), []⟩

/-! ## Helper lemmas -/

theorem find_congr {α : Type} (p q : α → Bool) (l : List α) (h : ∀ a, p a = q a) :
    l.find? p = l.find? q := by
  induction l with
  | nil => rfl
  | cons x t ih =>
    simp only [List.find?]
    rw [h x]
    cases q x <;> simp [ih]

theorem find_beq_mem (a : String) (l : List String) (h : a ∈ l) :
    l.find? (fun m => m == a) = some a := by
  induction l with
  | nil => cases h
  | cons x t ih =>
    simp only [List.find?]
    by_cases hx : x = a
    · subst hx; simp
    · have hb : (x == a) = false := by simp [hx]
      rw [hb]
      exact ih (by cases h with
        | head => exact absurd rfl hx
        | tail _ hmem => exact hmem)

theorem find_beq_not_mem (a : String) (l : List String) (h : a ∉ l) :
    l.find? (fun m => m == a) = none := by
  rw [List.find?_eq_none]
  intro x hx hbeq
  exact h (eq_of_beq hbeq ▸ hx)

theorem dictGet_set_same (d : Dict) (k : JsonVal) (v : Option JsonVal) :
    dictGet (dictSet d k v) k = some v := by
  induction d with
  | nil => simp [dictSet, dictGet, List.find?]
  | cons p t ih =>
    obtain ⟨k2, v2⟩ := p
    simp only [dictSet]
    by_cases hk : k2 = k
    · subst hk; simp [dictGet, List.find?]
    · have hb : (k2 == k) = false := by simp [hk]
      rw [hb]
      simpa [dictGet, List.find?, hb] using ih

theorem dGet_set_same (d : Dict) (k : JsonVal) (v : Option JsonVal) :
    dGet (dictSet d k v) k = v := by
  simp [dGet, dictGet_set_same]

theorem init_ledger_get (sels : List String) (s : String) (h : s ∈ sels) :
    dictGet (init_ledger sels) (.str s) = some none := by
  induction sels with
  | nil => cases h
  | cons x t ih =>
    simp only [init_ledger, List.map, dictGet, List.find?]
    by_cases hx : x = s
    · subst hx; simp
    · have hb : ((JsonVal.str x) == (JsonVal.str s)) = false := by simp [hx]
      rw [hb]
      have hmem : s ∈ t := by
        cases h with
        | head => exact absurd rfl hx
        | tail _ hm => exact hm
      simpa [init_ledger, dictGet] using ih hmem

theorem json_raises_parse_none (bs : List Nat)
    (h : json_certainly_raises bs = true) : parseHeaderBytes bs = none := by
  unfold json_certainly_raises at h
  unfold parseHeaderBytes
  by_cases hall : bs.all (fun b => b < 128)
  · rw [if_pos hall]
    have hobj : parseObj (bs.map Char.ofNat) = none := by
      unfold parseObj
      cases hsk : skipWs (bs.map Char.ofNat) with
      | nil => rfl
      | cons c cs2 =>
        rw [hsk] at h
        have hc : c ≠ '\x7b' := by
          intro e
          rw [e] at h
          simp [jsonValueStart] at h
        split
        · simp_all
        · rfl
    rw [hobj]
  · rw [if_neg hall]

theorem readline_append (xs rest : List Nat) (h : 10 ∉ xs) :
    readline (xs ++ 10 :: rest) = (xs ++ [10], rest) := by
  induction xs with
  | nil => simp [readline]
  | cons b t ih =>
    have hb : b ≠ 10 := fun e => h (e ▸ List.mem_cons_self b t)
    have ih2 := ih (fun hm => h (List.mem_cons_of_mem b hm))
    simp only [List.cons_append, readline, if_neg hb, List.append_eq, ih2]

theorem mimeMatch_img (p : String) (hp : pyStartsWith p "text/plain" = false) (m : String) :
    mimeMatch p m = (m == p) := by
  simp [mimeMatch, hp]

theorem mimeMatch_text (p : String) (hp : pyStartsWith p "text/plain" = true) (m : String) :
    mimeMatch p m = pyStartsWith m "text/plain" := by
  simp only [mimeMatch, hp, Bool.true_and]
  by_cases hm : m = p
  · subst hm; simp [hp]
  · have hb : (m == p) = false := by simp [hm]
    simp [hb]

theorem choose_mime_eq (mimes : List String) :
    choose_mime mimes =
      if "image/png" ∈ mimes then some "image/png"
      else if "image/jpeg" ∈ mimes then some "image/jpeg"
      else if "image/webp" ∈ mimes then some "image/webp"
      else
        match mimes.find? (fun m => pyStartsWith m "text/plain") with
        | some t => some t
        | none => mimes.head? := by
  have e1 := find_congr (mimeMatch "image/png") (fun m => m == "image/png") mimes
    (mimeMatch_img "image/png" (by decide))
  have e2 := find_congr (mimeMatch "image/jpeg") (fun m => m == "image/jpeg") mimes
    (mimeMatch_img "image/jpeg" (by decide))
  have e3 := find_congr (mimeMatch "image/webp") (fun m => m == "image/webp") mimes
    (mimeMatch_img "image/webp" (by decide))
  have e4 := find_congr (mimeMatch "text/plain;charset=utf-8")
    (fun m => pyStartsWith m "text/plain") mimes (mimeMatch_text _ (by decide))
  have e5 := find_congr (mimeMatch "text/plain")
    (fun m => pyStartsWith m "text/plain") mimes (mimeMatch_text _ (by decide))
  unfold choose_mime prefList
  simp only [List.findSome?_cons, List.findSome?_nil, e1, e2, e3, e4, e5]
  by_cases h1 : "image/png" ∈ mimes
  · rw [find_beq_mem _ _ h1, if_pos h1]
  · rw [find_beq_not_mem _ _ h1, if_neg h1]
    by_cases h2 : "image/jpeg" ∈ mimes
    · rw [find_beq_mem _ _ h2, if_pos h2]
    · rw [find_beq_not_mem _ _ h2, if_neg h2]
      by_cases h3 : "image/webp" ∈ mimes
      · rw [find_beq_mem _ _ h3, if_pos h3]
      · rw [find_beq_not_mem _ _ h3, if_neg h3]
        cases hf : mimes.find? (fun m => pyStartsWith m "text/plain") <;> simp

theorem choose_mime_nil : choose_mime [] = none := by decide

theorem tx_sel_eq (sel : String) (inp : TxInput) (ll lr : Dict) (m : String) (d : List Nat)
    (hm : choose_mime inp.mimes = some m) (hne : m ≠ "") (hd : inp.readData = some d) :
    tx_sel sel inp ll lr =
      if dGet ll (.str sel) = some (.str (sha d m)) then ⟨none, false, ll, false⟩
      else if dGet lr (.str sel) = some (.str (sha d m)) then ⟨none, false, ll, false⟩
      else if inp.sendOk then
        ⟨some ⟨sel, m, d.length, sha d m, d⟩, true,
         dictSet ll (.str sel) (some (.str (sha d m))), false⟩
      else ⟨some ⟨sel, m, d.length, sha d m, d⟩, false, ll, true⟩ := by
  have hmimes : inp.mimes ≠ [] := by
    intro e
    rw [e, choose_mime_nil] at hm
    cases hm
  simp only [tx_sel, if_neg hmimes, hm, hd, if_neg hne]

theorem rx_put_applies (hdr : Header) (sel mime : String) (data rest : List Nat)
    (st : RxSt) (hv : Option JsonVal)
    (ht : hdrGet hdr "t" = some (.str "put"))
    (hsel : hdrGet hdr "sel" = some (.str sel))
    (hmime : hdrGet hdr "mime" = some (.str mime))
    (hlen : hdrGet hdr "len" = some (.num (data.length : Int)))
    (hh : (match hdrGet hdr "hash" with
           | none => none
           | some .null => none
           | some v => some v) = hv) :
    rx_handle_hdr hdr (data ++ rest) st =
      .cont rest ⟨dictSet st.last_remote (.str sel) hv, st.applied ++ [⟨sel, mime, data⟩]⟩ := by
  have hnlt : ¬ ((data.length : Int) < 0) := by omega
  simp only [rx_handle_hdr, ht, hsel, hmime, hlen, hh, Option.getD_some, pyInt,
    if_neg hnlt, Int.toNat_natCast, List.take_left, List.drop_left, set_clip_apply,
    ne_eq, not_true_eq_false, if_false, List.length_take]
  simp [ht]

/-! ## Claims -/

/-- C1: for every candidate snapshot polled for a selection, the outbound
path suppresses exactly when the candidate's content hash (`sha` of the
read bytes and chosen mime) equals the ledger's `last_local` (last-sent)
entry or its `last_remote` (last-received) entry for that selection, and
transmits otherwise; and polling the same content (identical bytes and
type) twice in a row, starting from a ledger in which that content is
fresh, yields exactly one transmitted frame. -/
theorem C1_suppression_and_idempotence
    (sel : String) (inp : TxInput) (ll lr : Dict) (m : String) (d : List Nat)
    (hm : choose_mime inp.mimes = some m) (hne : m ≠ "") (hd : inp.readData = some d) :
    ((tx_sel sel inp ll lr).attempted = none ↔
      dGet ll (.str sel) = some (.str (sha d m)) ∨ dGet lr (.str sel) = some (.str (sha d m)))
    ∧ (inp.sendOk = true →
        dGet ll (.str sel) ≠ some (.str (sha d m)) →
        dGet lr (.str sel) ≠ some (.str (sha d m)) →
        tx_sel_twice_count sel inp ll lr = 1) := by
  have he := tx_sel_eq sel inp ll lr m d hm hne hd
  by_cases hL : dGet ll (.str sel) = some (.str (sha d m))
  · rw [if_pos hL] at he
    exact ⟨by rw [he]; exact ⟨fun _ => Or.inl hL, fun _ => rfl⟩,
      fun _ hfl _ => absurd hL hfl⟩
  · rw [if_neg hL] at he
    by_cases hR : dGet lr (.str sel) = some (.str (sha d m))
    · rw [if_pos hR] at he
      exact ⟨by rw [he]; exact ⟨fun _ => Or.inr hR, fun _ => rfl⟩,
        fun _ _ hfr => absurd hR hfr⟩
    · rw [if_neg hR] at he
      constructor
      · rw [he]
        constructor
        · intro hx
          cases hsend : inp.sendOk <;> rw [hsend] at hx <;> simp at hx
        · intro hx
          exact absurd hx (by rw [not_or]; exact ⟨hL, hR⟩)
      · intro hsend _ _
        rw [hsend, if_pos rfl] at he
        have he2 := tx_sel_eq sel inp
          (dictSet ll (.str sel) (some (.str (sha d m)))) lr m d hm hne hd
        rw [if_pos (dGet_set_same ll (.str sel) (some (.str (sha d m))))] at he2
        simp [tx_sel_twice_count, he, he2, txDelivered]

/-- Witness for C1 at a concrete input: one selection offering mime `"a"`
with empty content and a working socket, starting from the fresh session
ledger; the snapshot is transmitted once across two polls. -/
theorem C1_witness :
    choose_mime ["a"] = some "a" ∧
    (((tx_sel "clipboard" ⟨["a"], some [], true⟩ (init_ledger ["clipboard"])
        (init_ledger ["clipboard"])).attempted = none ↔
      dGet (init_ledger ["clipboard"]) (.str "clipboard") = some (.str (sha [] "a")) ∨
      dGet (init_ledger ["clipboard"]) (.str "clipboard") = some (.str (sha [] "a")))
    ∧ ((true : Bool) = true →
        dGet (init_ledger ["clipboard"]) (.str "clipboard") ≠ some (.str (sha [] "a")) →
        dGet (init_ledger ["clipboard"]) (.str "clipboard") ≠ some (.str (sha [] "a")) →
        tx_sel_twice_count "clipboard" ⟨["a"], some [], true⟩ (init_ledger ["clipboard"])
          (init_ledger ["clipboard"]) = 1)) :=
  ⟨by decide,
   C1_suppression_and_idempotence "clipboard" ⟨["a"], some [], true⟩
     (init_ledger ["clipboard"]) (init_ledger ["clipboard"]) "a" []
     (by decide) (by decide) rfl⟩

/-- C5: when a fresh snapshot is sent, the outbound loop records its hash
in `last_local` only on a successful transmission; a failed `peer.send`
leaves `last_local` untouched, sets the stop event (signalling the inbound
loop: session-fatal), and the frame was attempted but not delivered. -/
theorem C5_update_only_after_success
    (sel : String) (inp : TxInput) (ll lr : Dict) (m : String) (d : List Nat)
    (hm : choose_mime inp.mimes = some m) (hne : m ≠ "") (hd : inp.readData = some d)
    (hfl : dGet ll (.str sel) ≠ some (.str (sha d m)))
    (hfr : dGet lr (.str sel) ≠ some (.str (sha d m))) :
    (inp.sendOk = false →
      (tx_sel sel inp ll lr).last_local = ll
      ∧ (tx_sel sel inp ll lr).stop = true
      ∧ (tx_sel sel inp ll lr).attempted ≠ none
      ∧ (tx_sel sel inp ll lr).delivered = false)
    ∧ (inp.sendOk = true →
      (tx_sel sel inp ll lr).last_local = dictSet ll (.str sel) (some (.str (sha d m)))
      ∧ (tx_sel sel inp ll lr).stop = false
      ∧ (tx_sel sel inp ll lr).delivered = true) := by
  have he := tx_sel_eq sel inp ll lr m d hm hne hd
  rw [if_neg hfl, if_neg hfr] at he
  constructor
  · intro hsend
    rw [hsend] at he
    simp only [Bool.false_eq_true, if_false] at he
    rw [he]
    exact ⟨rfl, rfl, by simp, rfl⟩
  · intro hsend
    rw [hsend, if_pos rfl] at he
    rw [he]
    exact ⟨rfl, rfl, rfl⟩

/-- Witness for C5 at a concrete input: same snapshot as the C1 witness
but with a failing socket write; the ledger is untouched and the stop
event set. -/
theorem C5_witness :
    choose_mime ["a"] = some "a" ∧
    ((false : Bool) = false →
      (tx_sel "clipboard" ⟨["a"], some [], false⟩ (init_ledger ["clipboard"])
        (init_ledger ["clipboard"])).last_local = init_ledger ["clipboard"]
      ∧ (tx_sel "clipboard" ⟨["a"], some [], false⟩ (init_ledger ["clipboard"])
          (init_ledger ["clipboard"])).stop = true
      ∧ (tx_sel "clipboard" ⟨["a"], some [], false⟩ (init_ledger ["clipboard"])
          (init_ledger ["clipboard"])).attempted ≠ none
      ∧ (tx_sel "clipboard" ⟨["a"], some [], false⟩ (init_ledger ["clipboard"])
          (init_ledger ["clipboard"])).delivered = false) :=
  ⟨by decide,
   (C5_update_only_after_success "clipboard" ⟨["a"], some [], false⟩
     (init_ledger ["clipboard"]) (init_ledger ["clipboard"]) "a" []
     (by decide) (by decide) rfl (by decide) (by decide)).1⟩

/-- C6: the per-session ledger dictionaries built by `run_session` start
with every active selection present and unset (`None`); `last_local` and
`last_remote` are both built as `init_ledger (session_selections pk)`.
Each connection accepted by `serve` runs its session from scratch: the
outcome of the i-th session is a function of the i-th connection's stream
alone, and every session's inbound half starts from the fresh ledger — no
value survives a reconnect. -/
theorem C6_fresh_ledger_per_session :
    (∀ (primary_ok : Bool) (s : String), s ∈ session_selections primary_ok →
      dictGet (init_ledger (session_selections primary_ok)) (.str s) = some none)
    ∧ (∀ (primary_ok : Bool) (streams : List (List Nat)) (i : Nat),
      (serve_rx primary_ok streams)[i]? = (streams[i]?).map (run_session_rx primary_ok))
    ∧ (∀ (primary_ok : Bool) (stream : List Nat),
      run_session_rx primary_ok stream =
        rx_loop (stream.length + 1) stream ⟨init_ledger (session_selections primary_ok), []⟩) :=
  ⟨fun _ s h => init_ledger_get _ s h,
   fun _ streams i => by simp [serve_rx],
   fun _ _ => rfl⟩

/-- Witness for C6: with primary sync active, the fresh ledger holds the
`primary` selection, unset. -/
theorem C6_witness :
    "primary" ∈ session_selections true ∧
    dictGet (init_ledger (session_selections true)) (.str "primary") = some none :=
  ⟨by decide, C6_fresh_ledger_per_session.1 true "primary" (by decide)⟩

/-- C7: `choose_mime` follows the fixed preference order `image/png`,
`image/jpeg`, `image/webp`, then any offered type starting with
`text/plain` (UTF-8 charset variants treated as equivalent to plain
text — the first offered such variant is returned), then the first other
offered type; in particular `["text/plain", "image/png"]` yields
`image/png` and `["text/plain;charset=utf-8"]` yields that text
variant. -/
theorem C7_preference_order (mimes : List String) :
    ("image/png" ∈ mimes → choose_mime mimes = some "image/png")
    ∧ ("image/png" ∉ mimes → "image/jpeg" ∈ mimes →
        choose_mime mimes = some "image/jpeg")
    ∧ ("image/png" ∉ mimes → "image/jpeg" ∉ mimes → "image/webp" ∈ mimes →
        choose_mime mimes = some "image/webp")
    ∧ ("image/png" ∉ mimes → "image/jpeg" ∉ mimes → "image/webp" ∉ mimes →
        ∀ t, mimes.find? (fun m => pyStartsWith m "text/plain") = some t →
          choose_mime mimes = some t)
    ∧ ("image/png" ∉ mimes → "image/jpeg" ∉ mimes → "image/webp" ∉ mimes →
        mimes.find? (fun m => pyStartsWith m "text/plain") = none →
          choose_mime mimes = mimes.head?)
    ∧ choose_mime ["text/plain", "image/png"] = some "image/png"
    ∧ choose_mime ["text/plain;charset=utf-8"] = some "text/plain;charset=utf-8" := by
  refine ⟨?_, ?_, ?_, ?_, ?_, by decide, by decide⟩
  · intro h1
    rw [choose_mime_eq, if_pos h1]
  · intro h1 h2
    rw [choose_mime_eq, if_neg h1, if_pos h2]
  · intro h1 h2 h3
    rw [choose_mime_eq, if_neg h1, if_neg h2, if_pos h3]
  · intro h1 h2 h3 t ht
    rw [choose_mime_eq, if_neg h1, if_neg h2, if_neg h3, ht]
  · intro h1 h2 h3 ht
    rw [choose_mime_eq, if_neg h1, if_neg h2, if_neg h3, ht]

/-- Witness for C7: the first preference applied to a concrete offer. -/
theorem C7_witness :
    "image/png" ∈ (["text/plain", "image/png"] : List String) ∧
    choose_mime ["text/plain", "image/png"] = some "image/png" :=
  ⟨by decide, (C7_preference_order ["text/plain", "image/png"]).1 (by decide)⟩

/-- C8: the content hash used for change detection, the source's
`sha(data, mime)`, equals the hex digest of SHA-256 computed over the
content-type bytes, one `0x00` byte, then the content bytes — the spec's
`content_type || 0x00 || bytes` contract (`contentHashSpec`). -/
theorem C8_content_hash_contract (content_type : String) (bytes : List Nat) :
    sha bytes content_type = contentHashSpec content_type bytes := by
  simp [sha, contentHashSpec, List.append_assoc]

/-- The SHA-256 model matches the FIPS 180-4 reference vector for
`"abc"`, grounding `sha256` as real SHA-256. -/
theorem sha256_reference_vector :
    hexDigest (sha256 [97, 98, 99]) =
      "ba7816bf8f01cfea414140de5dae2223b00361a396177a9cb410ff61f20015ad" := by decide

/-- The full `sha` model matches `hashlib`'s digest of
`b"text/plain\x00hi"` (computed independently). -/
theorem sha_reference_vector :
    sha [104, 105] "text/plain" =
      "43fc6a37d37c97d488d05dae28689cb8b458d53fcc9b9c59faecee235e62dafb" := by decide

/-- C2: a put header declaring more payload bytes than remain in the
stream before end-of-input makes the inbound loop end fatally, with the
state — ledger and applied writes — untouched by the truncated frame, and
the ending sets the stop event (the session terminates). -/
theorem C2_short_payload_is_fatal
    (xs rest : List Nat) (hdr : Header) (L : Int) (st : RxSt) (n : Nat)
    (h10 : 10 ∉ xs)
    (hp : parseHeaderBytes (xs ++ [10]) = some hdr)
    (ht : hdrGet hdr "t" = some (.str "put"))
    (hl : hdrGet hdr "len" = some (.num L))
    (hshort : (rest.length : Int) < L) :
    rx_loop (n + 1) (xs ++ 10 :: rest) st = ⟨.fatalE, st⟩ ∧ stopSet .fatalE = true := by
  refine ⟨?_, rfl⟩
  have hnlt : ¬ (L < 0) := by omega
  have hlen_ne : ¬ (((rest.take L.toNat).length : Int) = L) := by
    rw [List.length_take]
    omega
  have hfatal : rx_handle_hdr hdr rest st = .fatal st := by
    simp only [rx_handle_hdr, ht, hl, Option.getD_some, pyInt, if_neg hnlt,
      if_neg hlen_ne]
    simp
  have hne : xs ++ [10] ≠ [] := by simp
  have hstep : rx_step (xs ++ 10 :: rest) st = .fatal st := by
    simp only [rx_step, readline_append xs rest h10, if_neg hne, hp, hfatal]
  simp only [rx_loop, hstep]

/-- Witness for C2 at a concrete input: a header declaring `len: 5`
followed by only the two bytes `hi` before end of stream. -/
theorem C2_witness :
    10 ∉ strBytes "\x7b\x22t\x22: \x22put\x22, \x22len\x22: 5\x7d" ∧
    ((2 : Int) < 5) ∧
    (rx_loop 1 (strBytes "\x7b\x22t\x22: \x22put\x22, \x22len\x22: 5\x7d" ++ 10 :: [104, 105])
        rxInit = ⟨.fatalE, rxInit⟩ ∧ stopSet .fatalE = true) :=
  ⟨by decide, by decide,
   C2_short_payload_is_fatal (strBytes "\x7b\x22t\x22: \x22put\x22, \x22len\x22: 5\x7d")
     [104, 105] [("t", .str "put"), ("len", .num 5)] 5 rxInit 0
     (by decide) (by decide) (by decide) (by decide) (by decide)⟩

/-- C3 counterexample: the claim says a header line that cannot be parsed
is stream-fatal and ends the session.  On the concrete stream consisting
of the unparseable line `oops` followed by a complete put frame, the
inbound loop instead continues past the bad line (`rx_step` yields a
continue, not a break), goes on to apply the later frame, and only ends at
end-of-stream. -/
theorem C3_counterexample :
    rx_step (strBytes "oops\n" ++ strBytes "\x7b\x22t\x22: \x22put\x22, \x22hash\x22: \x22aa\x22\x7d\n")
        rxInit =
      .cont (strBytes "\x7b\x22t\x22: \x22put\x22, \x22hash\x22: \x22aa\x22\x7d\n") rxInit
    ∧ (rx_loop 3 (strBytes "oops\n" ++ strBytes "\x7b\x22t\x22: \x22put\x22, \x22hash\x22: \x22aa\x22\x7d\n")
        rxInit).endKind = .eofE
    ∧ (rx_loop 3 (strBytes "oops\n" ++ strBytes "\x7b\x22t\x22: \x22put\x22, \x22hash\x22: \x22aa\x22\x7d\n")
        rxInit).st.applied = [⟨"clipboard", "text/plain", []⟩] := by
  exact ⟨by decide, by decide, by decide⟩

/-- C3 (amended): a received header line on which `json.loads` raises is
logged and skipped — only that line is consumed and the session continues
(it is not stream-fatal; only end-of-input and a payload length mismatch
are).  The first conjunct states this over `json_certainly_raises`, a
sound sufficient condition for `json.loads` to raise (a first
non-whitespace byte that cannot begin a JSON value, or a line of only
whitespace), so the hypothesis never admits a line the library would
parse.  A header that parses to an object whose message type is not `put`
is likewise skipped (the header line only — a declared payload of such a
frame is not consumed) and the session continues. -/
theorem C3_amended_skip_and_continue :
    (∀ (xs rest : List Nat) (st : RxSt), 10 ∉ xs →
      json_certainly_raises (xs ++ [10]) = true →
      rx_step (xs ++ 10 :: rest) st = .cont rest st)
    ∧ (∀ (hdr : Header) (rest : List Nat) (st : RxSt),
      hdrGet hdr "t" ≠ some (.str "put") →
      rx_handle_hdr hdr rest st = .cont rest st) := by
  constructor
  · intro xs rest st h10 hraises
    have hne : xs ++ [10] ≠ [] := by simp
    simp only [rx_step, readline_append xs rest h10, if_neg hne,
      json_raises_parse_none _ hraises]
  · intro hdr rest st ht
    rw [rx_handle_hdr, if_pos ht]

/-- Witness for the amended C3: the line `oops` (on which `json.loads`
raises "Expecting value" at its first character) is skipped with the
session continuing, and an unrecognized message type `get` is skipped with
the session continuing. -/
theorem C3_amended_witness :
    10 ∉ strBytes "oops" ∧
    json_certainly_raises (strBytes "oops" ++ [10]) = true ∧
    rx_step (strBytes "oops" ++ 10 :: [1, 2, 3]) rxInit = .cont [1, 2, 3] rxInit ∧
    rx_handle_hdr [("t", .str "get")] [1, 2] rxInit = .cont [1, 2] rxInit :=
  ⟨by decide, by decide,
   C3_amended_skip_and_continue.1 (strBytes "oops") [1, 2, 3] rxInit (by decide) (by decide),
   C3_amended_skip_and_continue.2 [("t", .str "get")] [1, 2] rxInit (by decide)⟩

/-- C4 counterexample: the claim says a put header missing any of the
fields `selection`, `content_type`, `length`, `content_hash` fails
decoding.  The concrete frame whose header is only `t: put` is instead
decoded and fully applied: the clipboard write `("clipboard",
"text/plain", empty)` happens and `last_remote["clipboard"]` is set to
`None` — every missing field was substituted with a default. -/
theorem C4_counterexample :
    rx_loop 2 (strBytes "\x7b\x22t\x22: \x22put\x22\x7d\n") rxInit =
      ⟨.eofE, ⟨[(.str "clipboard", none)], [⟨"clipboard", "text/plain", []⟩]⟩⟩ := by decide

/-- C4 (amended): decoding a put frame requires only the `t` field to be
`put`; a header missing all of `sel`, `mime`, `len` and `hash` is still
accepted, with the defaults `clipboard`, `text/plain`, `0` and `None`
substituted, and the empty frame applied. -/
theorem C4_amended_defaults (hdr : Header) (rest : List Nat) (st : RxSt)
    (ht : hdrGet hdr "t" = some (.str "put"))
    (hs : hdrGet hdr "sel" = none) (hm : hdrGet hdr "mime" = none)
    (hl : hdrGet hdr "len" = none) (hh : hdrGet hdr "hash" = none) :
    rx_handle_hdr hdr rest st =
      .cont rest ⟨dictSet st.last_remote (.str "clipboard") none,
                  st.applied ++ [⟨"clipboard", "text/plain", []⟩]⟩ := by
  simp only [rx_handle_hdr, ht, hs, hm, hl, hh, Option.getD_none, pyInt,
    Int.toNat_zero, List.take_zero, List.drop_zero, set_clip_apply]
  simp [ht]

/-- Witness for the amended C4 at the concrete header holding only
`t: put`. -/
theorem C4_amended_witness :
    hdrGet [("t", JsonVal.str "put")] "sel" = none ∧
    rx_handle_hdr [("t", .str "put")] [7] rxInit =
      .cont [7] ⟨dictSet rxInit.last_remote (.str "clipboard") none,
                 rxInit.applied ++ [⟨"clipboard", "text/plain", []⟩]⟩ :=
  ⟨by decide,
   C4_amended_defaults [("t", .str "put")] [7] rxInit
     (by decide) (by decide) (by decide) (by decide) (by decide)⟩

/-- C9: a put frame whose payload is fully available is applied with the
header's declared hash value recorded verbatim in `last_remote` — the
statement holds for every declared hash string `hs`, with no relation to
the digest `sha` of the payload, so a mismatched declared hash is still
applied and recorded; and a frame with no hash field at all is likewise
applied, recording `None`. -/
theorem C9_declared_hash_recorded
    (hdr : Header) (sel mime hs : String) (data rest : List Nat) (st : RxSt)
    (ht : hdrGet hdr "t" = some (.str "put"))
    (hsel : hdrGet hdr "sel" = some (.str sel))
    (hmime : hdrGet hdr "mime" = some (.str mime))
    (hlen : hdrGet hdr "len" = some (.num (data.length : Int))) :
    (hdrGet hdr "hash" = some (.str hs) →
      rx_handle_hdr hdr (data ++ rest) st =
        .cont rest ⟨dictSet st.last_remote (.str sel) (some (.str hs)),
                    st.applied ++ [⟨sel, mime, data⟩]⟩)
    ∧ (hdrGet hdr "hash" = none →
      rx_handle_hdr hdr (data ++ rest) st =
        .cont rest ⟨dictSet st.last_remote (.str sel) none,
                    st.applied ++ [⟨sel, mime, data⟩]⟩) :=
  ⟨fun hh => rx_put_applies hdr sel mime data rest st _ ht hsel hmime hlen (by rw [hh]),
   fun hh => rx_put_applies hdr sel mime data rest st _ ht hsel hmime hlen (by rw [hh])⟩

/-- Witness for C9: a frame declaring the hash `nothash`, which is not
the digest of its own content, is still applied, with `nothash`
recorded. -/
theorem C9_witness :
    "nothash" ≠ sha [104, 105] "text/plain" ∧
    rx_handle_hdr
        [("t", .str "put"), ("sel", .str "clipboard"), ("mime", .str "text/plain"),
         ("len", .num 2), ("hash", .str "nothash")]
        ([104, 105] ++ [9]) rxInit =
      .cont [9] ⟨dictSet rxInit.last_remote (.str "clipboard") (some (.str "nothash")),
                 rxInit.applied ++ [⟨"clipboard", "text/plain", [104, 105]⟩]⟩ :=
  ⟨by decide,
   (C9_declared_hash_recorded
     [("t", .str "put"), ("sel", .str "clipboard"), ("mime", .str "text/plain"),
      ("len", .num 2), ("hash", .str "nothash")]
     "clipboard" "text/plain" "nothash" [104, 105] [9] rxInit
     (by decide) (by decide) (by decide) (by decide)).1 (by decide)⟩

/-- C10: the inbound loop uses the header's `sel` value without checking
it against the session's active selections — for every selection name,
including one not in `session_selections`, the frame's declared hash is
recorded in the ledger under that name and its content handed to the
clipboard provider for that selection. -/
theorem C10_unvalidated_selection
    (primary_ok : Bool) (hdr : Header) (sel mime hs : String)
    (data rest : List Nat) (st : RxSt)
    (_hinactive : sel ∉ session_selections primary_ok)
    (ht : hdrGet hdr "t" = some (.str "put"))
    (hsel : hdrGet hdr "sel" = some (.str sel))
    (hmime : hdrGet hdr "mime" = some (.str mime))
    (hlen : hdrGet hdr "len" = some (.num (data.length : Int)))
    (hh : hdrGet hdr "hash" = some (.str hs)) :
    rx_handle_hdr hdr (data ++ rest) st =
      .cont rest ⟨dictSet st.last_remote (.str sel) (some (.str hs)),
                  st.applied ++ [⟨sel, mime, data⟩]⟩ :=
  rx_put_applies hdr sel mime data rest st _ ht hsel hmime hlen (by rw [hh])

/-- Witness for C10: with primary sync disabled, a frame naming the
inactive selection `primary` is still recorded and applied under that
name. -/
theorem C10_witness :
    "primary" ∉ session_selections false ∧
    rx_handle_hdr
        [("t", .str "put"), ("sel", .str "primary"), ("mime", .str "text/plain"),
         ("len", .num 1), ("hash", .str "hh")]
        ([88] ++ []) rxInit =
      .cont [] ⟨dictSet rxInit.last_remote (.str "primary") (some (.str "hh")),
                rxInit.applied ++ [⟨"primary", "text/plain", [88]⟩]⟩ :=
  ⟨by decide,
   C10_unvalidated_selection false
     [("t", .str "put"), ("sel", .str "primary"), ("mime", .str "text/plain"),
      ("len", .num 1), ("hash", .str "hh")]
     "primary" "text/plain" "hh" [88] [] rxInit
     (by decide) (by decide) (by decide) (by decide) (by decide) (by decide)⟩
